import Mathlib

/-!
Verification of the sprite-sheet layout engine of `spritesheet-maker`
(`src/spritesheetmaker/main.py`).

The Python source is shallowly embedded below.  Pure helpers become Lean
functions; PIL rasters become a concrete `Raster` structure holding a
row-major pixel list (the shape returned by `im.getdata()`); file-system
and clock effects are passed in explicitly (the decoded frame list, the
`utcnow` string); exceptions become `Except`.  Each definition carries a
comment naming the source lines it embeds.
-/

/-- An RGBA pixel, the pixel model of a PIL "RGBA" image. -/
structure Pixel where
  r : Nat
  g : Nat
  b : Nat
  a : Nat
deriving DecidableEq, Repr

/-- A raster image: integer width and height plus row-major flat pixel
data, the shape `im.getdata()` exposes (`main.py` line 38). -/
structure Raster where
  width : Nat
  height : Nat
  data : List Pixel
deriving DecidableEq, Repr

/-- Python truthiness on an optional int: `v if v else d` yields `d` when
`v` is `None` or `0`, otherwise `v`.  Used at `main.py` lines 43, 58, 59. -/
def pyIntOr (value : Option Nat) (dflt : Nat) : Nat :=
  match value with
  | none => dflt
  | some n => if n = 0 then dflt else n

/-- Python `math.ceil(a / b)` for naturals with `b > 0`
(exact for the integer arguments the program passes). -/
def mathCeilDiv (a b : Nat) : Nat := (a + b - 1) / b

/-- Content-level model of Python `lst.index(v)`: the index of the first
element equal to `v` (`main.py` line 73).  At runtime the list holds PIL
getdata objects, which define no content comparison, so `==` on them falls
back to object identity; on a chunk of pairwise distinct rasters — the
only inputs the theorems below apply this to — the content search agrees
with the runtime identity search (`pyIndexId` is the identity-level
model).  Returns `lst.length` when `v` is absent; in the source the
searched value is always drawn from the list itself. -/
def pyIndex [DecidableEq α] (l : List α) (v : α) : Nat := l.indexOf v

/-- Python `"%02d" % n` for a natural `n`: decimal digits, left-padded
with zeros to a minimum width of 2 (`main.py` line 94). -/
def pyFormat02d (n : Nat) : String :=
  if n < 10 then "0" ++ toString n else toString n

/-- Python `range(start, stop, step)` over naturals with a non-negative
step.  A zero step raises `ValueError` (`main.py` line 25 constructs
`range(0, len(values), chunk_size)`). -/
def pyRange (start stop step : Nat) : Except String (List Nat) :=
  if step = 0 then Except.error "ValueError: range() arg 3 must not be zero"
  else Except.ok ((List.range ((stop - start + step - 1) / step)).map (fun k => start + k * step))

/-- The `chunks` function, `main.py` lines 21-28:
slices `values[i:i + chunk_size]` for `i in range(0, len(values), chunk_size)`. -/
def chunks (values : List α) (chunk_size : Nat) : Except String (List (List α)) :=
  match pyRange 0 values.length chunk_size with
  | Except.error e => Except.error e
  | Except.ok idxs => Except.ok (idxs.map (fun i => (values.drop i).take chunk_size))

/-- The successful payload of `chunks values chunk_size` for a non-zero
`chunk_size` (see `chunks_eq_ok_chunkCore`). -/
def chunkCore (values : List α) (chunk_size : Nat) : List (List α) :=
  (List.range ((values.length + chunk_size - 1) / chunk_size)).map
    (fun k => (values.drop (k * chunk_size)).take chunk_size)

/-- Chunking stage of `read_images`, `main.py` lines 42-48.  Globbing and
decoding the source directory are external I/O; the decoded, sorted frame
list is the input.  `chunk_size = images_count if not chunk_size else
chunk_size` is Python truthiness (line 43). -/
def read_images (images : List Raster) (chunk_size : Option Nat) : Except String (List (List Raster)) :=
  let images_count := images.length
  chunks images (pyIntOr chunk_size images_count)

/-- DEFAULT_COLUMNS_COUNT, `main.py` line 13. -/
def DEFAULT_COLUMNS_COUNT : Nat := 5

/-- Grid resolution, `main.py` lines 58-59:
`max_columns = columns if columns else DEFAULT_COLUMNS_COUNT`,
`max_rows = rows if rows else math.ceil(len(images) / DEFAULT_COLUMNS_COUNT)`.
Returns `(max_columns, max_rows)`. -/
def resolveGrid (images_length : Nat) (rows columns : Option Nat) : Nat × Nat :=
  let max_columns := pyIntOr columns DEFAULT_COLUMNS_COUNT
  let max_rows := pyIntOr rows (mathCeilDiv images_length DEFAULT_COLUMNS_COUNT)
  (max_columns, max_rows)

/-- A fully transparent pixel, the fill of `Image.new("RGBA", ...)`. -/
def transparentPixel : Pixel := ⟨0, 0, 0, 0⟩

/-- Pixel lookup at `(x, y)` in row-major data (out-of-range reads the
transparent default; the embedded code only reads in range). -/
def Raster.getpixel (im : Raster) (x y : Nat) : Pixel :=
  im.data.getD (y * im.width + x) transparentPixel

/-- PIL `Image.new("RGBA", (w, h))`: a `w × h` canvas whose every pixel is
fully transparent (`main.py` line 69). -/
def imageNew (w h : Nat) : Raster :=
  ⟨w, h, List.replicate (h * w) transparentPixel⟩

/-- PIL `im.crop((left, upper, right, lower))` (`main.py` line 72): a new
`(right - left) × (lower - upper)` raster copying the source in range and
zero-filled (transparent) outside it.  The source raster is not touched. -/
def Raster.crop (im : Raster) (box : Nat × Nat × Nat × Nat) : Raster :=
  let left := box.1
  let upper := box.2.1
  let w := box.2.2.1 - left
  let h := box.2.2.2 - upper
  ⟨w, h, (List.range (h * w)).map (fun j =>
    let x := j % w
    let y := j / w
    if left + x < im.width ∧ upper + y < im.height
    then im.getpixel (left + x) (upper + y)
    else transparentPixel)⟩

/-- PIL `sheet.paste(src, (x1, y1, x2, y2))` (`main.py` line 91): the
sheet with the region of the size of `src` anchored at `(x1, y1)` overwritten
by `src`, clipped to the sheet bounds; dimensions unchanged. -/
def Raster.paste (sheet src : Raster) (box : Nat × Nat × Nat × Nat) : Raster :=
  let x1 := box.1
  let y1 := box.2.1
  ⟨sheet.width, sheet.height, (List.range (sheet.height * sheet.width)).map (fun j =>
    let x := j % sheet.width
    let y := j / sheet.width
    if x1 ≤ x ∧ x < x1 + src.width ∧ y1 ≤ y ∧ y < y1 + src.height
    then src.getpixel (x - x1) (y - y1)
    else sheet.getpixel x y)⟩

/-- Destination rectangle of a frame, `main.py` lines 83-89:
`x1 = tile_height * (frame_index % max_columns)`,
`y1 = tile_width * math.floor(frame_index / max_columns)`,
`x2 = x1 + tile_width`, `y2 = y1 + tile_height`.
The source multiplies each coordinate by the cross tile dimension. -/
def placementBox (frame_index tile_width tile_height max_columns : Nat) : Nat × Nat × Nat × Nat :=
  let x1 := tile_height * (frame_index % max_columns)
  let y1 := tile_width * (frame_index / max_columns)
  (x1, y1, x1 + tile_width, y1 + tile_height)

/-- The composition loop, `main.py` lines 71-91, iterating over the
remaining frames `rest` of the chunk `images` with the sheet as
accumulator.  Each frame is cropped, its index recovered by value search
(`images.index(frame)`), the loop breaks at the first index strictly
greater than `max_rows * max_columns`, otherwise the cropped frame is
pasted at its destination rectangle. -/
def composeLoop (images : List Raster) (tile_width tile_height max_rows max_columns : Nat) :
    List Raster → Raster → Raster
  | [], sprite_sheet => sprite_sheet
  | frame :: rest, sprite_sheet =>
    let cropped_frame := frame.crop (0, 0, tile_width, tile_height)
    let frame_index := pyIndex images frame
    if frame_index > max_rows * max_columns then sprite_sheet
    else composeLoop images tile_width tile_height max_rows max_columns rest
      (sprite_sheet.paste cropped_frame (placementBox frame_index tile_width tile_height max_columns))

/-- Trace of the composition loop on the remaining frames `rest`: the
frames the loop pastes, each with the frame index the loop computes for it
(`images.index(frame)`), cut off at the break of the loop. -/
def composeTraceGo (images : List Raster) (max_rows max_columns : Nat) :
    List Raster → List (Raster × Nat)
  | [] => []
  | frame :: rest =>
    let frame_index := pyIndex images frame
    if frame_index > max_rows * max_columns then []
    else (frame, frame_index) :: composeTraceGo images max_rows max_columns rest

/-- Trace of the whole composition loop over a chunk. -/
def composeTrace (images : List Raster) (max_rows max_columns : Nat) : List (Raster × Nat) :=
  composeTraceGo images max_rows max_columns images

/-- Output filename, `main.py` lines 93-96.  `if spritesheet_name:` is
Python truthiness (`None` and `""` fall through to the timestamp branch);
the timestamp branch reads the wall clock, passed in as `utcnow`. -/
def sprite_sheet_file_name (spritesheet_name : Option String) (chunk_number : Nat) (utcnow : String) : String :=
  match spritesheet_name with
  | some s =>
    if s = "" then "spritesheet_" ++ utcnow ++ ".png"
    else s ++ "-" ++ pyFormat02d chunk_number ++ ".png"
  | none => "spritesheet_" ++ utcnow ++ ".png"

/-- Sprite sheet of one chunk, `main.py` lines 50-101
(`generate_sprite_sheet_from_images_chunk`).  Returns the composed raster
together with the filename it is saved under (saving itself is external
I/O; `output_dir` plays no role in the raster or the name).  The source
reads `images[0]` for the tile size; chunks reaching this function are
never empty (see the C9 theorem), so the `headD` default is unreachable
there; on an empty list Python would raise IndexError. -/
def generate_sprite_sheet_from_images_chunk (images : List Raster) (chunk_number : Nat)
    (rows columns : Option Nat) (spritesheet_name : Option String) (utcnow : String) :
    Raster × String :=
  let grid := resolveGrid images.length rows columns
  let max_columns := grid.1
  let max_rows := grid.2
  let first := images.headD ⟨0, 0, []⟩
  let tile_width := first.width
  let tile_height := first.height
  let sprite_sheet_width := tile_width * max_columns
  let sprite_sheet_height := tile_height * max_rows
  let sprite_sheet := imageNew sprite_sheet_width sprite_sheet_height
  (composeLoop images tile_width tile_height max_rows max_columns images sprite_sheet,
   sprite_sheet_file_name spritesheet_name chunk_number utcnow)

/-- The pipeline, `main.py` lines 103-123 (`generate_sprite_sheets`):
read and chunk the frames, return early on zero chunks, otherwise compose
one sheet per chunk with 1-based chunk numbers `i + 1`.  The decoding
error of `read_images` (and the `ValueError` of `chunks`) propagates. -/
def generate_sprite_sheets (images : List Raster) (rows columns chunk_size : Option Nat)
    (spritesheet_name : Option String) (utcnow : String) :
    Except String (List (Raster × String)) :=
  match read_images images chunk_size with
  | Except.error e => Except.error e
  | Except.ok images_chunks =>
    if images_chunks.length = 0 then Except.ok []
    else Except.ok (images_chunks.enum.map (fun p =>
      generate_sprite_sheet_from_images_chunk p.2 (p.1 + 1) rows columns spritesheet_name utcnow))

/-!
Heap-level rendering of the composition, used to state that composing a
sheet never mutates the source frames.  PIL rasters are mutable objects;
the heap is a list of rasters addressed by index, the chunk is a list of
addresses, every write is an explicit heap update.  `Image.new` and
`im.crop` allocate fresh cells; `sheet.paste` writes the cell of the sheet.
-/

/-- A heap of raster objects, addressed by list index. -/
abbrev ImageStore := List Raster

/-- Dereference an address (out-of-range reads an empty raster). -/
def storeGet (st : ImageStore) (a : Nat) : Raster := st.getD a ⟨0, 0, []⟩

/-- Heap-level composition loop (`main.py` lines 71-91): crop allocates a
fresh cell, `images.index(frame)` compares the dereferenced frame against
the dereferenced chunk, paste overwrites only the cell of the sheet. -/
def composeLoopStore (imageAddrs : List Nat) (tile_width tile_height max_rows max_columns sheetAddr : Nat) :
    List Nat → ImageStore → ImageStore
  | [], st => st
  | a :: rest, st =>
    let frame := storeGet st a
    let cropped_frame := frame.crop (0, 0, tile_width, tile_height)
    let frame_index := pyIndex (imageAddrs.map (storeGet st)) frame
    if frame_index > max_rows * max_columns then st
    else
      let st1 := st ++ [cropped_frame]
      let new_sheet := (storeGet st1 sheetAddr).paste cropped_frame
        (placementBox frame_index tile_width tile_height max_columns)
      composeLoopStore imageAddrs tile_width tile_height max_rows max_columns sheetAddr rest
        (st1.set sheetAddr new_sheet)

/-- Heap-level rendering of `generate_sprite_sheet_from_images_chunk`
(`main.py` lines 58-91): resolve the grid, read the tile size from the
first frame, allocate the transparent canvas at a fresh address, run the
loop.  Returns the final heap and the address of the sheet. -/
def generate_chunk_store (st : ImageStore) (imageAddrs : List Nat) (rows columns : Option Nat) :
    ImageStore × Nat :=
  let grid := resolveGrid imageAddrs.length rows columns
  let first := storeGet st (imageAddrs.headD 0)
  let tile_width := first.width
  let tile_height := first.height
  let sheetAddr := st.length
  let st1 := st ++ [imageNew (tile_width * grid.1) (tile_height * grid.2)]
  (composeLoopStore imageAddrs tile_width tile_height grid.2 grid.1 sheetAddr imageAddrs st1,
   sheetAddr)

/-!
Identity-level rendering of the frame-index recovery of `main.py` line 73.
The chunk list holds the `im.getdata()` result objects; these PIL objects
define no content comparison, so Python `==` on them falls back to object
identity and `images.index(frame)` finds the first list entry that IS the
iterated object.  Objects are modelled by their heap addresses; every
decode (`main.py` line 38) allocates a fresh object, so a real chunk is a
list of pairwise distinct addresses, whatever pixel content — possibly
identical — the addressed rasters hold.
-/

/-- Python `lst.index(obj)` over object references without content
equality: the index of the first entry whose ADDRESS is that of `obj`
(the runtime behaviour of `main.py` line 73). -/
def pyIndexId (addrs : List Nat) (a : Nat) : Nat := addrs.indexOf a

/-- Identity-level trace of the composition loop (`main.py` lines 71-77)
on the remaining addresses `rest`: the object addresses the loop pastes,
each with the frame index `images.index(frame)` computes by identity, cut
off at the break of the loop. -/
def composeTraceIdGo (imageAddrs : List Nat) (max_rows max_columns : Nat) :
    List Nat → List (Nat × Nat)
  | [] => []
  | a :: rest =>
    let frame_index := pyIndexId imageAddrs a
    if frame_index > max_rows * max_columns then []
    else (a, frame_index) :: composeTraceIdGo imageAddrs max_rows max_columns rest

/-- Identity-level trace of the whole composition loop over a chunk. -/
def composeTraceId (imageAddrs : List Nat) (max_rows max_columns : Nat) : List (Nat × Nat) :=
  composeTraceIdGo imageAddrs max_rows max_columns imageAddrs

/-!
Concrete sample frames used as inputs of the witness and counterexample
theorems below.
-/

/-- A sample 1 x 1 opaque frame. -/
def oneFrame : Raster := ⟨1, 1, [⟨255, 0, 0, 255⟩]⟩

/-- Two distinct 1 x 2 frames (tile width 1, tile height 2). -/
def frameA : Raster := ⟨1, 2, [⟨1, 0, 0, 255⟩, ⟨2, 0, 0, 255⟩]⟩

def frameB : Raster := ⟨1, 2, [⟨3, 0, 0, 255⟩, ⟨4, 0, 0, 255⟩]⟩

/-- Seven pairwise distinct 1 x 1 frames. -/
def cex7 : List Raster :=
  [⟨1, 1, [⟨0, 0, 0, 255⟩]⟩, ⟨1, 1, [⟨1, 0, 0, 255⟩]⟩, ⟨1, 1, [⟨2, 0, 0, 255⟩]⟩,
   ⟨1, 1, [⟨3, 0, 0, 255⟩]⟩, ⟨1, 1, [⟨4, 0, 0, 255⟩]⟩, ⟨1, 1, [⟨5, 0, 0, 255⟩]⟩,
   ⟨1, 1, [⟨6, 0, 0, 255⟩]⟩]

/-- A 1 x 1 frame used twice in one chunk. -/
def dupFrame : Raster := ⟨1, 1, [⟨9, 9, 9, 255⟩]⟩


/-- For a non-zero chunk size, `chunks` succeeds with payload `chunkCore`. -/
theorem chunks_eq_ok_chunkCore {α : Type} (values : List α) (cs : Nat) (hcs : 1 ≤ cs) :
    chunks values cs = Except.ok (chunkCore values cs) := by
  unfold chunks pyRange chunkCore
  rw [if_neg (by omega)]
  simp [List.map_map, Function.comp]

theorem chunkCore_nil {α : Type} (cs : Nat) (hcs : 1 ≤ cs) :
    chunkCore ([] : List α) cs = [] := by
  unfold chunkCore
  rw [List.length_nil, Nat.zero_add, Nat.div_eq_of_lt (by omega)]
  rfl

theorem chunkCore_cons {α : Type} (cs : Nat) (hcs : 1 ≤ cs) (values : List α) (hv : values ≠ []) :
    chunkCore values cs = values.take cs :: chunkCore (values.drop cs) cs := by
  have hn : 1 ≤ values.length := List.length_pos.mpr hv
  unfold chunkCore
  have hlen : (values.length + cs - 1) / cs = ((values.drop cs).length + cs - 1) / cs + 1 := by
    rw [List.length_drop]
    rcases le_or_lt values.length cs with h | h
    · have h0 : values.length - cs = 0 := by omega
      rw [h0]
      have e1 : (values.length + cs - 1) / cs = 1 :=
        Nat.div_eq_of_lt_le (by omega) (by omega)
      have e2 : (0 + cs - 1) / cs = 0 := Nat.div_eq_of_lt (by omega)
      rw [e1, e2]
    · have e : values.length + cs - 1 = (values.length - cs + cs - 1) + cs := by omega
      rw [e, Nat.add_div_right _ (by omega)]
  rw [hlen, List.range_succ_eq_map]
  rw [List.map_cons, Nat.zero_mul, List.drop_zero, List.map_map]
  congr 1
  apply List.map_congr_left
  intro k hk
  simp only [Function.comp_apply]
  rw [List.drop_drop]
  congr 2
  rw [Nat.succ_mul]
  omega

theorem chunkCore_flatten_aux {α : Type} (cs : Nat) (hcs : 1 ≤ cs) :
    ∀ (n : Nat) (values : List α), values.length ≤ n → (chunkCore values cs).flatten = values := by
  intro n
  induction n with
  | zero =>
    intro values hv
    have h0 : values = [] := List.length_eq_zero.mp (by omega)
    rw [h0, chunkCore_nil cs hcs]
    rfl
  | succ n ih =>
    intro values hv
    by_cases hnil : values = []
    · rw [hnil, chunkCore_nil cs hcs]; rfl
    · rw [chunkCore_cons cs hcs values hnil, List.flatten_cons,
        ih (values.drop cs) (by rw [List.length_drop]; omega),
        List.take_append_drop]

/-- Chunking is lossless: concatenating the chunks gives back the input. -/
theorem chunkCore_flatten {α : Type} (cs : Nat) (hcs : 1 ≤ cs) (values : List α) :
    (chunkCore values cs).flatten = values :=
  chunkCore_flatten_aux cs hcs values.length values (Nat.le_refl _)

theorem chunkCore_length {α : Type} (values : List α) (cs : Nat) :
    (chunkCore values cs).length = (values.length + cs - 1) / cs := by
  unfold chunkCore
  rw [List.length_map, List.length_range]

/-- Every chunk produced from a list by a positive chunk size is non-empty. -/
theorem chunkCore_mem_ne_nil {α : Type} (cs : Nat) (hcs : 1 ≤ cs) (values : List α)
    (c : List α) (hc : c ∈ chunkCore values cs) : c ≠ [] := by
  unfold chunkCore at hc
  rw [List.mem_map] at hc
  obtain ⟨k, hk, rfl⟩ := hc
  rw [List.mem_range] at hk
  have hkcs : k * cs < values.length := by
    by_contra hcon
    push_neg at hcon
    have h2 : values.length + cs - 1 < (k + 1) * cs := by
      rw [Nat.add_mul, Nat.one_mul]; omega
    have : (values.length + cs - 1) / cs < k + 1 :=
      (Nat.div_lt_iff_lt_mul (by omega)).mpr h2
    omega
  intro hceq
  have hlen := congrArg List.length hceq
  rw [List.length_take, List.length_drop, List.length_nil] at hlen
  omega

/-- The chunk count is the ceiling of `length / cs`, characterized order-theoretically. -/
theorem chunkCore_length_ceil {α : Type} (values : List α) (cs : Nat) (hcs : 1 ≤ cs) :
    values.length ≤ (chunkCore values cs).length * cs ∧
    (chunkCore values cs).length * cs < values.length + cs := by
  rw [chunkCore_length]
  constructor
  · have hm := Nat.div_add_mod (values.length + cs - 1) cs
    have hlt := Nat.mod_lt (values.length + cs - 1) (show 0 < cs by omega)
    rw [Nat.mul_comm]
    omega
  · have := Nat.div_mul_le_self (values.length + cs - 1) cs
    omega

theorem paste_width (sheet src : Raster) (box : Nat × Nat × Nat × Nat) :
    (sheet.paste src box).width = sheet.width := rfl

theorem paste_height (sheet src : Raster) (box : Nat × Nat × Nat × Nat) :
    (sheet.paste src box).height = sheet.height := rfl

/-- The composition loop is the fold of pasting the cropped traced frames. -/
theorem composeLoop_eq_foldl (images : List Raster) (tw th mr mc : Nat) :
    ∀ (rest : List Raster) (sheet : Raster),
      composeLoop images tw th mr mc rest sheet =
        (composeTraceGo images mr mc rest).foldl
          (fun sh p => sh.paste (p.1.crop (0, 0, tw, th)) (placementBox p.2 tw th mc)) sheet := by
  intro rest
  induction rest with
  | nil => intro sheet; rfl
  | cons frame rest ih =>
    intro sheet
    simp only [composeLoop, composeTraceGo]
    by_cases h : pyIndex images frame > mr * mc
    · rw [if_pos h, if_pos h]
      rfl
    · rw [if_neg h, if_neg h, List.foldl_cons]
      exact ih _

/-- Pasting never changes the sheet dimensions, hence neither does the loop. -/
theorem composeLoop_width (images : List Raster) (tw th mr mc : Nat) :
    ∀ (rest : List Raster) (sheet : Raster),
      (composeLoop images tw th mr mc rest sheet).width = sheet.width := by
  intro rest
  induction rest with
  | nil => intro sheet; rfl
  | cons frame rest ih =>
    intro sheet
    simp only [composeLoop]
    by_cases h : pyIndex images frame > mr * mc
    · rw [if_pos h]
    · rw [if_neg h, ih]
      rfl

theorem composeLoop_height (images : List Raster) (tw th mr mc : Nat) :
    ∀ (rest : List Raster) (sheet : Raster),
      (composeLoop images tw th mr mc rest sheet).height = sheet.height := by
  intro rest
  induction rest with
  | nil => intro sheet; rfl
  | cons frame rest ih =>
    intro sheet
    simp only [composeLoop]
    by_cases h : pyIndex images frame > mr * mc
    · rw [if_pos h]
    · rw [if_neg h, ih]
      rfl

/-- Every pixel of a fresh canvas is fully transparent. -/
theorem imageNew_getpixel (w h x y : Nat) :
    (imageNew w h).getpixel x y = transparentPixel := by
  unfold imageNew Raster.getpixel
  rw [List.getD_eq_getElem?_getD, List.getElem?_replicate]
  split <;> rfl

/-- On a duplicate-free chunk the recovered frame indices are the positions,
so the trace covers exactly the positions up to the break, `k ≤ mr*mc`. -/
theorem composeTraceGo_drop (images : List Raster) (mr mc : Nat) (H : images.Nodup) :
    ∀ (rest : List Raster) (k : Nat), rest = images.drop k →
      (composeTraceGo images mr mc rest).map Prod.snd =
        List.range' k (min (images.length - k) (mr * mc + 1 - k)) := by
  intro rest
  induction rest with
  | nil =>
    intro k hk
    have hlen : images.length ≤ k := List.drop_eq_nil_iff.mp hk.symm
    have h0 : min (images.length - k) (mr * mc + 1 - k) = 0 := by omega
    rw [h0]
    rfl
  | cons frame rest ih =>
    intro k hk
    have hklt : k < images.length := by
      by_contra hcon
      push_neg at hcon
      rw [List.drop_eq_nil_of_le hcon] at hk
      exact List.cons_ne_nil _ _ hk
    rw [List.drop_eq_getElem_cons hklt] at hk
    have hframe : frame = images[k] := (List.cons.injEq _ _ _ _ ▸ hk).1
    have hrest : rest = images.drop (k + 1) := (List.cons.injEq _ _ _ _ ▸ hk).2
    have hidx : pyIndex images frame = k := by
      rw [hframe]
      exact List.indexOf_getElem H k hklt
    simp only [composeTraceGo, hidx]
    by_cases hcap : k > mr * mc
    · rw [if_pos hcap]
      have h0 : min (images.length - k) (mr * mc + 1 - k) = 0 := by omega
      rw [h0]
      rfl
    · rw [if_neg hcap, List.map_cons, ih (k + 1) hrest]
      have h1 : min (images.length - k) (mr * mc + 1 - k) =
          min (images.length - (k + 1)) (mr * mc + 1 - (k + 1)) + 1 := by omega
      rw [h1, List.range'_succ]

/-- On a duplicate-free chunk the sequence of placed indices is
`0, 1, ..., min(length, capacity + 1) - 1`. -/
theorem composeTrace_indices (images : List Raster) (mr mc : Nat) (H : images.Nodup) :
    (composeTrace images mr mc).map Prod.snd =
      List.range (min images.length (mr * mc + 1)) := by
  unfold composeTrace
  rw [composeTraceGo_drop images mr mc H images 0 (by rfl), List.range_eq_range']
  congr 1

/-- Identity-level analogue of `composeTraceGo_drop`: among pairwise
distinct addresses the identity lookup recovers each position. -/
theorem composeTraceIdGo_drop (imageAddrs : List Nat) (mr mc : Nat) (H : imageAddrs.Nodup) :
    ∀ (rest : List Nat) (k : Nat), rest = imageAddrs.drop k →
      (composeTraceIdGo imageAddrs mr mc rest).map Prod.snd =
        List.range' k (min (imageAddrs.length - k) (mr * mc + 1 - k)) := by
  intro rest
  induction rest with
  | nil =>
    intro k hk
    have hlen : imageAddrs.length ≤ k := List.drop_eq_nil_iff.mp hk.symm
    have h0 : min (imageAddrs.length - k) (mr * mc + 1 - k) = 0 := by omega
    rw [h0]
    rfl
  | cons a rest ih =>
    intro k hk
    have hklt : k < imageAddrs.length := by
      by_contra hcon
      push_neg at hcon
      rw [List.drop_eq_nil_of_le hcon] at hk
      exact List.cons_ne_nil _ _ hk
    rw [List.drop_eq_getElem_cons hklt] at hk
    have ha : a = imageAddrs[k] := (List.cons.injEq _ _ _ _ ▸ hk).1
    have hrest : rest = imageAddrs.drop (k + 1) := (List.cons.injEq _ _ _ _ ▸ hk).2
    have hidx : pyIndexId imageAddrs a = k := by
      rw [ha]
      exact List.indexOf_getElem H k hklt
    simp only [composeTraceIdGo, hidx]
    by_cases hcap : k > mr * mc
    · rw [if_pos hcap]
      have h0 : min (imageAddrs.length - k) (mr * mc + 1 - k) = 0 := by omega
      rw [h0]
      rfl
    · rw [if_neg hcap, List.map_cons, ih (k + 1) hrest]
      have h1 : min (imageAddrs.length - k) (mr * mc + 1 - k) =
          min (imageAddrs.length - (k + 1)) (mr * mc + 1 - (k + 1)) + 1 := by omega
      rw [h1, List.range'_succ]

/-- Among pairwise distinct addresses the sequence of placed indices is
`0, 1, ..., min(length, capacity + 1) - 1`: each placed object gets its
own position. -/
theorem composeTraceId_indices (imageAddrs : List Nat) (mr mc : Nat) (H : imageAddrs.Nodup) :
    (composeTraceId imageAddrs mr mc).map Prod.snd =
      List.range (min imageAddrs.length (mr * mc + 1)) := by
  unfold composeTraceId
  rw [composeTraceIdGo_drop imageAddrs mr mc H imageAddrs 0 (by rfl), List.range_eq_range']
  congr 1

/-- The heap-level loop only appends fresh cells and overwrites the cell of the
sheet, so every cell below `n ≤ sheetAddr` keeps its content. -/
theorem composeLoopStore_getD_lt (imageAddrs : List Nat) (tw th mr mc sheetAddr n : Nat)
    (hsheet : n ≤ sheetAddr) :
    ∀ (rest : List Nat) (st : ImageStore), n ≤ st.length → ∀ b, b < n →
      storeGet (composeLoopStore imageAddrs tw th mr mc sheetAddr rest st) b = storeGet st b := by
  intro rest
  induction rest with
  | nil => intro st hst b hb; rfl
  | cons a rest ih =>
    intro st hst b hb
    simp only [composeLoopStore]
    by_cases h : pyIndex (imageAddrs.map (storeGet st)) (storeGet st a) > mr * mc
    · rw [if_pos h]
    · rw [if_neg h]
      rw [ih _ (by rw [List.length_set, List.length_append]; simp; omega) b hb]
      unfold storeGet
      rw [List.getD_eq_getElem?_getD, List.getElem?_set_ne (by omega),
        List.getElem?_append_left (by omega), ← List.getD_eq_getElem?_getD]

theorem one_le_pyIntOr (v : Option Nat) (d : Nat) (hd : 1 ≤ d) : 1 ≤ pyIntOr v d := by
  cases v with
  | none => exact hd
  | some n =>
    simp only [pyIntOr]
    by_cases h : n = 0
    · rw [if_pos h]; exact hd
    · rw [if_neg h]; omega

theorem one_le_mathCeilDiv (a b : Nat) (ha : 1 ≤ a) (hb : 1 ≤ b) : 1 ≤ mathCeilDiv a b := by
  unfold mathCeilDiv
  rw [Nat.one_le_div_iff (by omega)]
  omega

/-- C1.  For a non-empty frame list and `chunkSize ≥ 1`, chunking succeeds,
concatenating the chunks reproduces the input, and the chunk count is
`ceil(length / chunkSize)` (stated by the formula and by the
characterization of the ceiling). -/
theorem claim_C1_chunking {α : Type} (values : List α) (chunk_size : Nat)
    (hne : values ≠ []) (hcs : 1 ≤ chunk_size) :
    chunks values chunk_size = Except.ok (chunkCore values chunk_size) ∧
    (chunkCore values chunk_size).flatten = values ∧
    (chunkCore values chunk_size).length = (values.length + chunk_size - 1) / chunk_size ∧
    values.length ≤ (chunkCore values chunk_size).length * chunk_size ∧
    (chunkCore values chunk_size).length * chunk_size < values.length + chunk_size :=
  ⟨chunks_eq_ok_chunkCore values chunk_size hcs,
   chunkCore_flatten chunk_size hcs values,
   chunkCore_length values chunk_size,
   (chunkCore_length_ceil values chunk_size hcs).1,
   (chunkCore_length_ceil values chunk_size hcs).2⟩

theorem claim_C1_witness :
    chunks [1, 2, 3] 2 = Except.ok (chunkCore [1, 2, 3] 2) ∧
    (chunkCore [1, 2, 3] 2).flatten = [1, 2, 3] ∧
    (chunkCore [1, 2, 3] 2).length = ([1, 2, 3].length + 2 - 1) / 2 ∧
    [1, 2, 3].length ≤ (chunkCore [1, 2, 3] 2).length * 2 ∧
    (chunkCore [1, 2, 3] 2).length * 2 < [1, 2, 3].length + 2 :=
  claim_C1_chunking [1, 2, 3] 2 (by decide) (by decide)

/-- C2.  With zero source frames and `chunkSize` unset the pipeline does
NOT complete normally: the effective chunk size becomes `0` and
`range(0, 0, 0)` raises `ValueError`.  (With `chunkSize ≥ 1` the empty run
does complete with zero sheets.) -/
theorem claim_C2_empty_source_crash (rows columns : Option Nat) (name : Option String)
    (utcnow : String) :
    generate_sprite_sheets [] rows columns none name utcnow =
      Except.error "ValueError: range() arg 3 must not be zero" := rfl

/-- C5.  The resolved grid takes explicit columns (else the constant 5)
and explicit rows (else `ceil(chunkFrameCount / 5)`); the divisor of the
row estimate is the constant `DEFAULT_COLUMNS_COUNT = 5` regardless of
`columns` (note the right-hand sides never mention `columns`). -/
theorem claim_C5_resolver (chunkFrameCount : Nat) (rows columns : Option Nat)
    (hcf : 1 ≤ chunkFrameCount)
    (hcols : ∀ c, columns = some c → 1 ≤ c)
    (hrows : ∀ r, rows = some r → 1 ≤ r) :
    (resolveGrid chunkFrameCount rows columns).1 = columns.getD DEFAULT_COLUMNS_COUNT ∧
    (resolveGrid chunkFrameCount rows columns).2 = rows.getD (mathCeilDiv chunkFrameCount 5) := by
  constructor
  · match columns with
    | none => rfl
    | some c =>
      have hc : 1 ≤ c := hcols c rfl
      simp only [resolveGrid, pyIntOr, Option.getD_some]
      rw [if_neg (by omega)]
  · match rows with
    | none => rfl
    | some r =>
      have hr : 1 ≤ r := hrows r rfl
      simp only [resolveGrid, pyIntOr, Option.getD_some]
      rw [if_neg (by omega)]

/-- Witness for C5 at `chunkFrameCount = 7`, explicit `columns = 3`: the
row estimate is `ceil(7/5) = 2`, not `ceil(7/3) = 3`. -/
theorem claim_C5_witness :
    (resolveGrid 7 none (some 3)).1 = (some 3 : Option Nat).getD DEFAULT_COLUMNS_COUNT ∧
    (resolveGrid 7 none (some 3)).2 = (none : Option Nat).getD (mathCeilDiv 7 5) :=
  claim_C5_resolver 7 none (some 3) (by decide)
    (by intro c hc; cases hc; decide) (by intro r hr; cases hr)

/-- C9.  For a non-empty source, validated options and any `chunkSize`
(`≥ 1` or unset), every chunk the pipeline hands to the compositor is
non-empty and its resolved grid satisfies `columns ≥ 1` and `rows ≥ 1`. -/
theorem claim_C9_grid_invariant (images : List Raster) (chunk_size rows columns : Option Nat)
    (cl : List (List Raster))
    (hne : images ≠ [])
    (hcs : ∀ k, chunk_size = some k → 1 ≤ k)
    (hrows : ∀ r, rows = some r → 1 ≤ r)
    (hcols : ∀ c, columns = some c → 1 ≤ c)
    (hread : read_images images chunk_size = Except.ok cl) :
    ∀ chunk ∈ cl, chunk ≠ [] ∧
      1 ≤ (resolveGrid chunk.length rows columns).1 ∧
      1 ≤ (resolveGrid chunk.length rows columns).2 := by
  intro chunk hchunk
  have hlen : 1 ≤ images.length := List.length_pos.mpr hne
  have hcs1 : 1 ≤ pyIntOr chunk_size images.length := one_le_pyIntOr _ _ hlen
  have hcl : cl = chunkCore images (pyIntOr chunk_size images.length) := by
    unfold read_images at hread
    rw [chunks_eq_ok_chunkCore images _ hcs1] at hread
    exact (Except.ok.injEq _ _ ▸ hread).symm
  rw [hcl] at hchunk
  have hnz : chunk ≠ [] := chunkCore_mem_ne_nil _ hcs1 images chunk hchunk
  refine ⟨hnz, one_le_pyIntOr _ _ (by decide), one_le_pyIntOr _ _ ?_⟩
  exact one_le_mathCeilDiv _ _ (List.length_pos.mpr hnz) (by decide)

theorem claim_C9_witness :
    [oneFrame, oneFrame] ≠ [] ∧
    1 ≤ (resolveGrid [oneFrame, oneFrame].length none none).1 ∧
    1 ≤ (resolveGrid [oneFrame, oneFrame].length none none).2 :=
  claim_C9_grid_invariant [oneFrame, oneFrame, oneFrame] (some 2) none none
    [[oneFrame, oneFrame], [oneFrame]] (by decide)
    (by intro k hk; cases hk; decide) (by intro r hr; cases hr) (by intro c hc; cases hc)
    (by rfl) [oneFrame, oneFrame] (by decide)

/-- C3 counterexample.  At frame index 1 with `tile_width = 1`,
`tile_height = 2`, `columns = 2` the destination rectangle of the code is
`(2, 0, 3, 2)`, not the claimed
`((1 mod 2) * tileWidth, (1 div 2) * tileHeight, ...) = (1, 0, 2, 2)`:
the source multiplies `x1` by the tile HEIGHT and `y1` by the tile WIDTH. -/
theorem claim_C3_counterexample :
    placementBox 1 1 2 2 ≠ ((1 % 2) * 1, (1 / 2) * 2, (1 % 2) * 1 + 1, (1 / 2) * 2 + 2) := by
  decide

/-- C3 amended.  Every frame the compositor places lands at the rectangle
`x1 = tileHeight * (i mod columns)`, `y1 = tileWidth * (i div columns)`,
`x2 = x1 + tileWidth`, `y2 = y1 + tileHeight` (cross-dimension
multipliers), where `i` is the index the loop recovers for the frame. -/
theorem claim_C3_amended (images : List Raster) (chunk_number : Nat) (rows columns : Option Nat)
    (spritesheet_name : Option String) (utcnow : String)
    (tile_width tile_height max_columns max_rows : Nat)
    (htw : tile_width = (images.headD ⟨0, 0, []⟩).width)
    (hth : tile_height = (images.headD ⟨0, 0, []⟩).height)
    (hmc : max_columns = (resolveGrid images.length rows columns).1)
    (hmr : max_rows = (resolveGrid images.length rows columns).2) :
    (generate_sprite_sheet_from_images_chunk images chunk_number rows columns
        spritesheet_name utcnow).1 =
      (composeTrace images max_rows max_columns).foldl
        (fun sh p => sh.paste (p.1.crop (0, 0, tile_width, tile_height))
          (tile_height * (p.2 % max_columns),
           tile_width * (p.2 / max_columns),
           tile_height * (p.2 % max_columns) + tile_width,
           tile_width * (p.2 / max_columns) + tile_height))
        (imageNew (tile_width * max_columns) (tile_height * max_rows)) := by
  subst htw hth hmc hmr
  simp only [generate_sprite_sheet_from_images_chunk]
  exact composeLoop_eq_foldl _ _ _ _ _ _ _

theorem claim_C3_witness :
    (generate_sprite_sheet_from_images_chunk [frameA, frameB] 1 (some 1) (some 2) none "T").1 =
      (composeTrace [frameA, frameB] 1 2).foldl
        (fun sh p => sh.paste (p.1.crop (0, 0, 1, 2))
          (2 * (p.2 % 2), 1 * (p.2 / 2), 2 * (p.2 % 2) + 1, 1 * (p.2 / 2) + 2))
        (imageNew (1 * 2) (2 * 1)) :=
  claim_C3_amended [frameA, frameB] 1 (some 1) (some 2) none "T" 1 2 2 1
    (by rfl) (by rfl) (by rfl) (by rfl)

/-- C4 counterexample.  With 7 frames and a 2 x 2 grid the loop also
places the frame at position 4 (the break fires only at index 5 > 4),
contradicting the claim that no frame at position 4 or beyond is placed. -/
theorem claim_C4_counterexample : 4 ∈ (composeTrace cex7 2 2).map Prod.snd := by decide

/-- C4 amended.  For any 7 pairwise distinct frames with `rows = 2`,
`columns = 2`, composition places exactly the frames at positions 0-4
(the overflow break is strict: it stops at the first index exceeding
`rows * columns = 4`, so the frame at index 4 is still pasted) and no
frame at position 5 or beyond. -/
theorem claim_C4_amended (images : List Raster) (h7 : images.length = 7)
    (hnd : images.Nodup) :
    (composeTrace images 2 2).map Prod.snd = [0, 1, 2, 3, 4] := by
  rw [composeTrace_indices images 2 2 hnd, h7]
  rfl

theorem claim_C4_witness : (composeTrace cex7 2 2).map Prod.snd = [0, 1, 2, 3, 4] :=
  claim_C4_amended cex7 (by rfl) (by decide)

/-- C6.  At runtime the frame-index lookup of `main.py` line 73 compares
by object identity (PIL getdata objects define no content equality), and a
chunk is a list of pairwise distinct objects — one fresh object per
decoded file — even when two of them hold identical pixel content.  Hence
the placement index the loop uses for the frame at 0-based position `i`
is `i` itself: the lookup of the object at position `i` returns `i`, and
the placed indices are exactly the positions in input order up to the
break. -/
theorem claim_C6_identity_index (imageAddrs : List Nat) (max_rows max_columns : Nat)
    (hnd : imageAddrs.Nodup) :
    (∀ i, i < imageAddrs.length → pyIndexId imageAddrs (imageAddrs.getD i 0) = i) ∧
    (composeTraceId imageAddrs max_rows max_columns).map Prod.snd =
      List.range (min imageAddrs.length (max_rows * max_columns + 1)) := by
  constructor
  · intro i hi
    unfold pyIndexId
    rw [List.getD_eq_getElem _ _ hi]
    exact List.indexOf_getElem hnd i hi
  · exact composeTraceId_indices imageAddrs _ _ hnd

/-- Witness for C6: a chunk of two distinct objects (addresses 0 and 1,
e.g. both holding a copy of `dupFrame`, identical pixel content) is placed
with indices 0 and 1 — each its own position. -/
theorem claim_C6_witness :
    (composeTraceId [0, 1] 1 5).map Prod.snd = List.range (min 2 6) :=
  (claim_C6_identity_index [0, 1] 1 5 (by decide)).2

/-- C7.  For a non-empty chunk the tile size is the size of the first frame,
the sheet is `tileWidth * columns` by `tileHeight * rows`, the sheet is
the fold of pasting each placed frame cropped to
`(0, 0, tileWidth, tileHeight)` onto a fresh canvas, and every pixel of
that fresh canvas is fully transparent. -/
theorem claim_C7_compositor (f : Raster) (rest : List Raster) (chunk_number : Nat)
    (rows columns : Option Nat) (spritesheet_name : Option String) (utcnow : String) :
    (generate_sprite_sheet_from_images_chunk (f :: rest) chunk_number rows columns
        spritesheet_name utcnow).1.width
      = f.width * (resolveGrid (f :: rest).length rows columns).1 ∧
    (generate_sprite_sheet_from_images_chunk (f :: rest) chunk_number rows columns
        spritesheet_name utcnow).1.height
      = f.height * (resolveGrid (f :: rest).length rows columns).2 ∧
    (generate_sprite_sheet_from_images_chunk (f :: rest) chunk_number rows columns
        spritesheet_name utcnow).1 =
      (composeTrace (f :: rest) (resolveGrid (f :: rest).length rows columns).2
          (resolveGrid (f :: rest).length rows columns).1).foldl
        (fun sh p => sh.paste (p.1.crop (0, 0, f.width, f.height))
          (placementBox p.2 f.width f.height (resolveGrid (f :: rest).length rows columns).1))
        (imageNew (f.width * (resolveGrid (f :: rest).length rows columns).1)
          (f.height * (resolveGrid (f :: rest).length rows columns).2)) ∧
    ∀ x y, (imageNew (f.width * (resolveGrid (f :: rest).length rows columns).1)
        (f.height * (resolveGrid (f :: rest).length rows columns).2)).getpixel x y
      = transparentPixel := by
  refine ⟨?_, ?_, ?_, fun x y => imageNew_getpixel _ _ x y⟩
  · simp only [generate_sprite_sheet_from_images_chunk]
    rw [composeLoop_width]
    rfl
  · simp only [generate_sprite_sheet_from_images_chunk]
    rw [composeLoop_height]
    rfl
  · simp only [generate_sprite_sheet_from_images_chunk]
    exact composeLoop_eq_foldl _ _ _ _ _ _ _

/-- C8.  With a non-empty name the filenames of a successful run are
exactly `name-KK.png` for the 1-based chunk ordinals `KK` zero-padded to
two digits; the right-hand side depends only on the name and the ordinals
(not on the clock `utcnow`), so a second run yields the same names. -/
theorem claim_C8_naming (images : List Raster) (rows columns chunk_size : Option Nat)
    (name : String) (utcnow : String) (hname : name ≠ "") :
    (generate_sprite_sheets images rows columns chunk_size (some name) utcnow).map
        (List.map Prod.snd) =
      (read_images images chunk_size).map (fun cl =>
        (List.range cl.length).map (fun i => name ++ "-" ++ pyFormat02d (i + 1) ++ ".png")) := by
  unfold generate_sprite_sheets
  cases hread : read_images images chunk_size with
  | error e => rfl
  | ok cl =>
    dsimp only
    by_cases h0 : cl.length = 0
    · rw [if_pos h0]
      have hnil : cl = [] := List.length_eq_zero.mp h0
      subst hnil
      rfl
    · rw [if_neg h0]
      simp only [Except.map]
      congr 1
      rw [List.map_map]
      have hfun : (Prod.snd ∘ fun p : Nat × List Raster =>
          generate_sprite_sheet_from_images_chunk p.2 (p.1 + 1) rows columns (some name) utcnow) =
          (fun p : Nat × List Raster => name ++ "-" ++ pyFormat02d (p.1 + 1) ++ ".png") := by
        funext p
        simp only [Function.comp_apply, generate_sprite_sheet_from_images_chunk,
          sprite_sheet_file_name]
        rw [if_neg hname]
      rw [hfun, List.enum_eq_zip_range]
      have hcomp : (fun p : Nat × List Raster => name ++ "-" ++ pyFormat02d (p.1 + 1) ++ ".png") =
          (fun i : Nat => name ++ "-" ++ pyFormat02d (i + 1) ++ ".png") ∘ Prod.fst := rfl
      rw [hcomp, ← List.map_map, List.map_fst_zip _ _ (by rw [List.length_range])]

theorem claim_C8_witness :
    (generate_sprite_sheets [oneFrame] none none none (some "hero") "T").map
        (List.map Prod.snd) =
      (read_images [oneFrame] none).map (fun cl =>
        (List.range cl.length).map (fun i => "hero" ++ "-" ++ pyFormat02d (i + 1) ++ ".png")) :=
  claim_C8_naming [oneFrame] none none none "hero" "T" (by decide)

/-- C10.  Composing a chunk never mutates a source frame: in the heap
model every frame cell holds exactly its original raster after the run
(only the freshly allocated sheet cell is ever written, and crops allocate
fresh cells). -/
theorem claim_C10_no_mutation (st : ImageStore) (imageAddrs : List Nat)
    (rows columns : Option Nat)
    (hvalid : ∀ a ∈ imageAddrs, a < st.length) :
    ∀ a ∈ imageAddrs,
      storeGet (generate_chunk_store st imageAddrs rows columns).1 a = storeGet st a := by
  intro a ha
  have halt : a < st.length := hvalid a ha
  simp only [generate_chunk_store]
  rw [composeLoopStore_getD_lt imageAddrs _ _ _ _ st.length st.length (Nat.le_refl _) imageAddrs
      _ (by rw [List.length_append]; simp) a halt]
  unfold storeGet
  exact List.getD_append _ _ _ _ halt

theorem claim_C10_witness :
    storeGet (generate_chunk_store [oneFrame, dupFrame] [0, 1] none none).1 0 =
        storeGet [oneFrame, dupFrame] 0 ∧
    storeGet (generate_chunk_store [oneFrame, dupFrame] [0, 1] none none).1 1 =
        storeGet [oneFrame, dupFrame] 1 :=
  ⟨claim_C10_no_mutation [oneFrame, dupFrame] [0, 1] none none (by decide) 0 (by decide),
   claim_C10_no_mutation [oneFrame, dupFrame] [0, 1] none none (by decide) 1 (by decide)⟩
